import Mathlib

/-!
Shallow embedding of `src/bot.py` (class `TelegramBot`): the access-control
and delivery pipeline of a media-delivery bot.  Python dictionaries keyed by
user id are modelled as functions `Nat → Option _`; the ordered dictionaries
`mandatory_channels` and `files` are modelled as association lists preserving
insertion order; wall-clock timestamps are modelled as rationals (seconds).
Remote chat-transport calls (`get_chat_member`, `send_photo`, …) are modelled
by explicit oracle arguments.
-/

/-- Python `int()` applied to a real quantity truncates toward zero. -/
def pyInt (q : ℚ) : Int := if 0 ≤ q then ⌊q⌋ else -⌊-q⌋

/-- Update of a `Nat`-keyed table. -/
def updT {α : Type} (t : Nat → Option α) (k : Nat) (v : Option α) : Nat → Option α :=
  fun k' => if k' = k then v else t k'

/-- Python `pattern in s` on character lists (substring occurrence). -/
def containsSub (pat : List Char) : List Char → Bool
  | [] => pat.isEmpty
  | c :: rest => pat.isPrefixOf (c :: rest) || containsSub pat rest

/-- Python `pattern in s` on strings. -/
def strContains (pat s : String) : Bool := containsSub pat.data s.data

/-- Python `s.lower()` (ASCII suffices for the patterns used by the source). -/
def lowerStr (s : String) : String := ⟨s.data.map Char.toLower⟩

/-- Association-list lookup: Python `d[k]` / `d.get(k)`. -/
def lookupA {α : Type} (k : String) : List (String × α) → Option α
  | [] => none
  | (k', v) :: rest => if k = k' then some v else lookupA k rest

/-- Association-list assignment: Python `d[k] = v` (overwrites in place,
keeps insertion order, appends when the key is fresh). -/
def insertA {α : Type} (k : String) (v : α) : List (String × α) → List (String × α)
  | [] => [(k, v)]
  | (k', v') :: rest => if k = k' then (k, v) :: rest else (k', v') :: insertA k v rest

/-! ## Rate limiter: `spam_control`, `check_spam`, `is_temp_blocked` -/

/-- One entry of `self.spam_control`:
`{'request_count': …, 'last_request': …, 'blocked_until': …}`. -/
structure SpamInfo where
  requestCount : Nat
  lastRequest : ℚ
  blockedUntil : Option ℚ
deriving DecidableEq, Repr

def SpamTable : Type := Nat → Option SpamInfo

def emptySpam : SpamTable := fun _ => none

/-- `TelegramBot.check_spam` (bot.py lines 256-292).  Returns the updated
`spam_control` table together with Python's `(is_spam, wait)` pair. -/
def check_spam (now : ℚ) (uid : Nat) (sc : SpamTable) : SpamTable × Bool × Int :=
  match sc uid with
  | some info =>
    let d := now - info.lastRequest
    if d < 2 then
      let rc := info.requestCount + 1
      let sc' := updT sc uid (some ⟨rc, now, if rc ≥ 5 then some (now + 10) else none⟩)
      if rc ≥ 5 then (sc', true, 10) else (sc', true, pyInt (2 - d))
    else
      (updT sc uid (some ⟨1, now, none⟩), false, 0)
  | none => (updT sc uid (some ⟨1, now, none⟩), false, 0)

/-- `TelegramBot.is_temp_blocked` (bot.py lines 294-307).  A `blocked_until`
in the past is lazily popped and the counter reset to 0. -/
def is_temp_blocked (now : ℚ) (uid : Nat) (sc : SpamTable) : SpamTable × Bool × Int :=
  match sc uid with
  | some info =>
    match info.blockedUntil with
    | some bu =>
      if now < bu then (sc, true, pyInt (bu - now))
      else (updT sc uid (some ⟨0, info.lastRequest, none⟩), false, 0)
    | none => (sc, false, 0)
  | none => (sc, false, 0)

/-- Outcome of the rate-limiting prologue of `handle_file_access`
(bot.py lines 365-388): temp-block check, then spam check; a wait ≥ 10
is reported as the 10-second spam block. -/
inductive RateOutcome where
  | allowed
  | throttled (wait : Int)
  | spamBlocked (wait : Int)
  | tempBlocked (remaining : Int)
deriving DecidableEq, Repr

/-- The rate-limiting prologue of `handle_file_access` for a non-admin user. -/
def rateGate (now : ℚ) (uid : Nat) (sc : SpamTable) : SpamTable × RateOutcome :=
  let r1 := is_temp_blocked now uid sc
  if r1.2.1 then (r1.1, .tempBlocked r1.2.2)
  else
    let r2 := check_spam now uid r1.1
    if r2.2.1 then
      if r2.2.2 ≥ 10 then (r2.1, .spamBlocked r2.2.2) else (r2.1, .throttled r2.2.2)
    else (r2.1, .allowed)

/-- A sequence of access attempts by one user at the given times. -/
def rateTrace (uid : Nat) (sc : SpamTable) : List ℚ → SpamTable × List RateOutcome
  | [] => (sc, [])
  | t :: ts =>
    let r := rateGate t uid sc
    let rs := rateTrace uid r.1 ts
    (rs.1, r.2 :: rs.2)

/-! ## Membership gate: `mandatory_channels`, `user_channel_memberships`,
`check_membership`, `mark_user_joined_channel` -/

/-- One entry of `self.mandatory_channels`.  The dictionary key is
`str(identifier)` (bot.py line 1320), so the entry's `identifier` doubles as
its key; `can_auto_verify` is the stored verification mode (`true` = the bot
is admin in the target, spec mode `auto`; `false` = spec mode `trust`). -/
structure ChannelInfo where
  identifier : String
  display : String
  buttonText : String
  canAutoVerify : Bool
deriving DecidableEq, Repr

/-- Result of the remote `get_chat_member` probe: either the member-status
string, or a raised exception. -/
inductive ProbeResult where
  | ok (status : String)
  | err
deriving DecidableEq, Repr

/-- The member statuses accepted at bot.py lines 131 and 153. -/
def memberStatuses : List String := ["member", "administrator", "creator"]

/-- `self.user_channel_memberships`: per user, per channel key, the satisfied
flag.  Python's `.get(key)` returns a falsy `None` for absent keys, so an
absent entry and a stored `False` behave identically; both are `false`. -/
def Memberships : Type := Nat → String → Bool

def updMem (m : Memberships) (u : Nat) (k : String) (b : Bool) : Memberships :=
  fun u' k' => if u' = u && k' = k then b else m u' k'

/-- The body of one iteration of `check_membership`'s channel loop
(bot.py lines 117-174).  Returns the updated membership table and whether
this channel was appended to `not_joined`. -/
def checkChannel (probe : String → ProbeResult) (u : Nat) (ch : ChannelInfo)
    (m : Memberships) : Memberships × Bool :=
  if m u ch.identifier then
    -- already verified (line 120)
    if ch.canAutoVerify then
      -- recheck to see if the user left (lines 123-137)
      match probe ch.identifier with
      | .ok status =>
        if status ∈ memberStatuses then (m, false)
        else (updMem m u ch.identifier false, true)
      | .err => (m, false)      -- keep existing verified status
    else (m, false)             -- trust-based, keep verified (line 139)
  else
    if ch.canAutoVerify then
      -- automatic verification (lines 147-165)
      match probe ch.identifier with
      | .ok status =>
        if status ∈ memberStatuses then (updMem m u ch.identifier true, false)
        else (updMem m u ch.identifier false, true)
      | .err => (m, true)       -- cannot verify: current flag is falsy, append
    else (m, true)              -- manual confirmation required (lines 167-169)

/-- `check_membership`'s loop over `mandatory_channels` in insertion order. -/
def checkMembershipAux (probe : String → ProbeResult) (u : Nat) :
    List ChannelInfo → Memberships → Memberships × List ChannelInfo
  | [], m => (m, [])
  | ch :: rest, m =>
    let r := checkChannel probe u ch m
    let rs := checkMembershipAux probe u rest r.1
    (rs.1, if r.2 then ch :: rs.2 else rs.2)

/-- `TelegramBot.check_membership` (bot.py lines 107-176).  Returns the updated
membership table and `not_joined`; Python's boolean result is
`not_joined = []` (line 176), and the early return for an empty
`mandatory_channels` (line 109) coincides with the loop on the empty list. -/
def check_membership (channels : List ChannelInfo) (probe : String → ProbeResult)
    (u : Nat) (m : Memberships) : Memberships × List ChannelInfo :=
  checkMembershipAux probe u channels m

/-- `TelegramBot.mark_user_joined_channel` (bot.py lines 178-182). -/
def mark_user_joined_channel (m : Memberships) (u : Nat) (k : String) : Memberships :=
  updMem m u k true

/-! ## Content registry: `files` and the committed bundles -/

/-- One element of a bundle's `files` list (bot.py lines 518-521). -/
structure FileItem where
  fileType : String
  telegramFileId : String
deriving DecidableEq, Repr

/-- One value of `self.files` (bot.py lines 1523-1530). -/
structure FileGroup where
  uniqueCode : String
  files : List FileItem
  caption : Option String
  deleteSeconds : Int
  uploadedBy : Nat
  createdAt : ℚ
deriving DecidableEq, Repr

/-- One value of `self.users` (bot.py lines 325-331); the key `user_id`
repeats the table key and is omitted. -/
structure UserInfo where
  username : String
  firstName : String
  isBlocked : Bool
  lastSeen : ℚ
deriving DecidableEq, Repr

/-- One element of `self.downloads` (bot.py lines 469-473). -/
structure DownloadRec where
  fileCode : String
  userId : Nat
  downloadedAt : ℚ
deriving DecidableEq, Repr

/-! ## Delivery: `send_files_to_user` -/

/-- Result of one remote `send_photo`/`send_video` call, indexed by item
position: the sent message id, or a raised transport error. -/
inductive SendResult where
  | ok (messageId : Nat)
  | fail
deriving DecidableEq, Repr

/-- The scheduled `schedule_message_deletion_and_send_buttons` task
(bot.py lines 458-466): chat, message ids to delete, delay, file code. -/
structure Cleanup where
  chatId : Nat
  messageIds : List Nat
  delaySeconds : Int
  fileCode : String
deriving DecidableEq, Repr

/-- Observable outcome of `send_files_to_user`. -/
structure DeliveryResult where
  sentMessageIds : List Nat
  attempted : Nat
  cleanup : Option Cleanup
  downloadRecorded : Bool
  errorMessageSent : Bool
deriving DecidableEq, Repr

/-- The caption attached to the item at index `idx` (bot.py lines 432-451):
the user caption decorates only the first item; every item carries the
deletion notice; the string content does not influence control flow. -/
def deliveryCaption (captionText : Option String) (idx : Nat) : Option String :=
  match captionText with
  | some c => if idx = 0 then some c else none
  | none => some ""

/-- The send loop of `send_files_to_user` (bot.py lines 432-455) inside its
`try`: items of type photo/video are sent in order (`oracle` gives each
call's outcome); any transport failure raises, aborting the remaining sends.
Returns the number of send calls made and, on success, the collected
message ids; items of any other type produce no send (`sent_message = None`).
-/
def sendLoop (oracle : Nat → SendResult) : List FileItem → Nat → Nat → Nat × Option (List Nat)
  | [], _, att => (att, some [])
  | f :: rest, idx, att =>
    if f.fileType = "photo" ∨ f.fileType = "video" then
      match oracle idx with
      | .ok mid =>
        let r := sendLoop oracle rest (idx + 1) (att + 1)
        (r.1, (r.2).map (mid :: ·))
      | .fail => (att + 1, none)
    else sendLoop oracle rest (idx + 1) att

/-- `TelegramBot.send_files_to_user` (bot.py lines 423-481).  On full success
the deletion task is scheduled for the collected ids (when any) and a
download record is appended; a transport failure propagates to the `except`
branch, which only sends the error message — nothing was scheduled and no
download was recorded. -/
def send_files_to_user (oracle : Nat → SendResult) (uid : Nat) (fg : FileGroup)
    (code : String) (downloads : List DownloadRec) (now : ℚ) :
    List DownloadRec × DeliveryResult :=
  match sendLoop oracle fg.files 0 0 with
  | (att, some ids) =>
    (downloads ++ [⟨code, uid, now⟩],
     { sentMessageIds := ids, attempted := att,
       cleanup := if ids.isEmpty then none else some ⟨uid, ids, fg.deleteSeconds, code⟩,
       downloadRecorded := true, errorMessageSent := false })
  | (att, none) =>
    (downloads,
     { sentMessageIds := [], attempted := att, cleanup := none,
       downloadRecorded := false, errorMessageSent := true })

/-! ## Upload session: `handle_admin_media` and the `delete_time` step -/

/-- The producer-side `context.user_data` fields used by the upload flow:
the duck-typed `awaiting` marker, the accumulated `temp_files`, and the
pending `caption`. -/
structure AdminUserData where
  awaiting : Option String
  tempFiles : List FileItem
  caption : Option String
deriving DecidableEq, Repr

/-- An incoming admin message for `handle_admin_media`: `update.message.photo`
set (the file id of its largest size), `update.message.video` set, or
neither. -/
inductive MediaMsg where
  | photo (fileId : String)
  | video (fileId : String)
  | other
deriving DecidableEq, Repr

inductive MediaOutcome where
  | accepted (fileCount : Nat)
  | unsupportedType
deriving DecidableEq, Repr

/-- `TelegramBot.handle_admin_media` (bot.py lines 498-538).  The `awaiting`
marker is neither consulted nor modified: any photo/video is appended to
`temp_files` unconditionally. -/
def handle_admin_media (ud : AdminUserData) (msg : MediaMsg) : AdminUserData × MediaOutcome :=
  match msg with
  | .photo fid =>
    ({ ud with tempFiles := ud.tempFiles ++ [⟨"photo", fid⟩] },
     .accepted (ud.tempFiles.length + 1))
  | .video fid =>
    ({ ud with tempFiles := ud.tempFiles ++ [⟨"video", fid⟩] },
     .accepted (ud.tempFiles.length + 1))
  | .other => (ud, .unsupportedType)

/-- The session data present in the `awaiting == 'delete_time'` state. -/
structure UploadSession where
  tempFiles : List FileItem
  caption : Option String
deriving DecidableEq, Repr

inductive TtlOutcome where
  | committed (code : String)
  | outOfRange
  | notAnInteger
deriving DecidableEq, Repr

/-- `handle_text`, branch `awaiting == 'delete_time'` (bot.py lines 1506-1557),
for an admin producer.  `input` models Python `int(text)` — `none` is the
`ValueError` path; `freshCode` models the `secrets.token_urlsafe(8)` draw.
Returns the updated `files` registry, the surviving session (Python clears
`user_data` only on commit), and the outcome. -/
def set_ttl (files : List (String × FileGroup)) (session : UploadSession) (uid : Nat)
    (now : ℚ) (freshCode : String) (input : Option Int) :
    List (String × FileGroup) × Option UploadSession × TtlOutcome :=
  match input with
  | none => (files, some session, .notAnInteger)
  | some n =>
    if n < 5 ∨ n > 30 then (files, some session, .outOfRange)
    else
      (insertA freshCode
        { uniqueCode := freshCode, files := session.tempFiles, caption := session.caption,
          deleteSeconds := n, uploadedBy := uid, createdAt := now } files,
       none, .committed freshCode)

/-! ## Access code generation: `secrets.token_urlsafe(8)` -/

/-- The base64url alphabet used by `secrets.token_urlsafe`. -/
def base64urlAlphabet : List Char :=
  ['A','B','C','D','E','F','G','H','I','J','K','L','M','N','O','P','Q','R','S','T','U','V','W','X','Y','Z',
   'a','b','c','d','e','f','g','h','i','j','k','l','m','n','o','p','q','r','s','t','u','v','w','x','y','z',
   '0','1','2','3','4','5','6','7','8','9','-','_']

/-- `k` base-64 digits of `e`, least significant first. -/
def sextetsLE : Nat → Nat → List Nat
  | 0, _ => []
  | k + 1, e => e % 64 :: sextetsLE k (e / 64)

/-- Value of a little-endian base-64 digit list. -/
def sextetsVal : List Nat → Nat
  | [] => 0
  | d :: ds => d + 64 * sextetsVal ds

/-- `secrets.token_urlsafe(8)` (bot.py line 1521): base64url-encode 8 random
bytes and strip the `=` padding.  The 64 random bits, read in order and
padded with two trailing zero bits, form 11 six-bit groups; for the 8-byte
big-endian value `r` those groups are exactly the 11 base-64 digits of
`r * 4`, most significant first. -/
def token_urlsafe8 (r : Nat) : List Char :=
  ((sextetsLE 11 (r % 2 ^ 64 * 4)).reverse).map (fun d => base64urlAlphabet.getD d 'A')

/-! ## `error_handler` and `broadcast_message` -/

/-- `TelegramBot.error_handler` (bot.py lines 1559-1567): when the error text
contains `"Forbidden"` or its lowercase form contains `"blocked"`, an update
with an effective user whose record exists is marked blocked. -/
def error_handler (errText : String) (uid : Option Nat)
    (users : Nat → Option UserInfo) : Nat → Option UserInfo :=
  match uid with
  | none => users
  | some u =>
    if strContains "Forbidden" errText || strContains "blocked" (lowerStr errText) then
      match users u with
      | some info => updT users u (some { info with isBlocked := true })
      | none => users
    else users

/-- `TelegramBot.broadcast_message` (bot.py lines 642-665): iterate the user
table (`order` is the dict's enumeration order), skip blocked users, send to
the rest, tally successes and failures.  Returns the list of user ids that
received a send attempt and the `(success, fail)` tally. -/
def broadcast_message (sendOk : Nat → Bool) (users : Nat → Option UserInfo) :
    List Nat → List Nat × Nat × Nat
  | [] => ([], 0, 0)
  | u :: rest =>
    let r := broadcast_message sendOk users rest
    match users u with
    | some info =>
      if info.isBlocked then r
      else if sendOk u then (u :: r.1, r.2.1 + 1, r.2.2)
      else (u :: r.1, r.2.1, r.2.2 + 1)
    | none => r

/-! ## `handle_file_access`, the confirm callback, and `start_command` -/

/-- Whole-process state threaded through the entry points. -/
structure BotState where
  users : Nat → Option UserInfo
  admins : Nat → Bool
  files : List (String × FileGroup)
  mandatoryChannels : List ChannelInfo
  spamControl : SpamTable
  memberships : Memberships
  downloads : List DownloadRec

inductive AccessOutcome where
  | tempBlocked (remaining : Int)
  | spamBlocked
  | throttled (wait : Int)
  | codeNotFound
  | membershipRequired (notJoined : List ChannelInfo)
  | delivered (r : DeliveryResult)
deriving DecidableEq, Repr

/-- `TelegramBot.handle_file_access` (bot.py lines 360-421) followed by its
`send_files_to_user` call: rate-limit prologue (skipped for admins), then the
registry lookup (line 391) — which the source performs *before* the
membership gate (line 396) — then delivery. -/
def handle_file_access (st : BotState) (probe : String → ProbeResult)
    (sendOracle : Nat → SendResult) (now : ℚ) (uid : Nat) (code : String) :
    BotState × AccessOutcome :=
  let gate :=
    if st.admins uid then (st.spamControl, RateOutcome.allowed)
    else rateGate now uid st.spamControl
  let st1 := { st with spamControl := gate.1 }
  match gate.2 with
  | .tempBlocked r => (st1, .tempBlocked r)
  | .spamBlocked _ => (st1, .spamBlocked)
  | .throttled w => (st1, .throttled w)
  | .allowed =>
    match lookupA code st1.files with
    | none => (st1, .codeNotFound)
    | some fg =>
      let mr := check_membership st1.mandatoryChannels probe uid st1.memberships
      let st2 := { st1 with memberships := mr.1 }
      if mr.2.isEmpty then
        let dr := send_files_to_user sendOracle uid fg code st2.downloads now
        ({ st2 with downloads := dr.1 }, .delivered dr.2)
      else (st2, .membershipRequired mr.2)

inductive ConfirmOutcome where
  | stillNotJoined
  | linkMissing
  | sent
deriving DecidableEq, Repr

/-- The membership portion of `button_callback`'s `check_` branch
(bot.py lines 1111-1146), after the rate-limit prologue: re-run
`check_membership`; channels still unmet split into auto-verifiable ones
(kept) and trust ones (marked joined immediately, line 1128); if any
auto-verifiable one remains the request is rejected; otherwise the file is
looked up and sent. -/
def confirm_membership (channels : List ChannelInfo) (probe : String → ProbeResult)
    (u : Nat) (m : Memberships) (files : List (String × FileGroup)) (code : String) :
    Memberships × ConfirmOutcome :=
  let ev := check_membership channels probe u m
  let nj := ev.2
  let m2 := (nj.filter (fun ch => !ch.canAutoVerify)).foldl
    (fun acc ch => mark_user_joined_channel acc u ch.identifier) ev.1
  if (nj.filter (·.canAutoVerify)).isEmpty then
    if (lookupA code files).isNone then (m2, .linkMissing) else (m2, .sent)
  else (m2, .stillNotJoined)

/-- The incoming Telegram user of an update. -/
structure TgUser where
  id : Nat
  username : Option String
  firstName : Option String

inductive StartOutcome where
  | blockedPrompt
  | fileAccess (o : AccessOutcome)
  | adminMenu
  | userMenu

/-- `TelegramBot.start_command` (bot.py lines 309-358): a blocked user gets
only the contact-admin prompt and nothing else runs; otherwise the user
record is refreshed and, when a code argument is present, the request is
handed to `handle_file_access`. -/
def start_command (st : BotState) (probe : String → ProbeResult)
    (sendOracle : Nat → SendResult) (now : ℚ) (u : TgUser) (args : Option String) :
    BotState × StartOutcome :=
  if ((st.users u.id).map UserInfo.isBlocked).getD false then (st, .blockedPrompt)
  else
    let st1 := { st with
      users := updT st.users u.id (some
        { username := u.username.getD "unknown", firstName := u.firstName.getD "unknown",
          isBlocked := false, lastSeen := now }) }
    match args with
    | some code =>
      let r := handle_file_access st1 probe sendOracle now u.id code
      (r.1, .fileAccess r.2)
    | none => (st1, if st1.admins u.id then .adminMenu else .userMenu)

/-! ## Helper lemmas on the table operations -/

theorem lookupA_insertA_self {α : Type} (k : String) (v : α) (l : List (String × α)) :
    lookupA k (insertA k v l) = some v := by
  induction l with
  | nil => simp [insertA, lookupA]
  | cons p rest ih =>
    by_cases h : k = p.1
    · simp [insertA, h, lookupA]
    · simp [insertA, h, lookupA, ih]

theorem lookupA_insertA_ne {α : Type} (k c : String) (v : α) (l : List (String × α))
    (h : c ≠ k) : lookupA c (insertA k v l) = lookupA c l := by
  induction l with
  | nil => simp [insertA, lookupA, h]
  | cons p rest ih =>
    by_cases hk : k = p.1
    · subst hk; simp [insertA, lookupA, h]
    · by_cases hc : c = p.1 <;> simp [insertA, hk, lookupA, hc, ih]

theorem length_insertA_of_lookup_none {α : Type} (k : String) (v : α)
    (l : List (String × α)) (h : lookupA k l = none) :
    (insertA k v l).length = l.length + 1 := by
  induction l with
  | nil => simp [insertA]
  | cons p rest ih =>
    by_cases hk : k = p.1
    · simp [lookupA, hk] at h
    · simp [lookupA, hk] at h
      simp [insertA, hk, ih h]

theorem length_insertA_of_lookup_some {α : Type} (k : String) (v w : α)
    (l : List (String × α)) (h : lookupA k l = some w) :
    (insertA k v l).length = l.length := by
  induction l with
  | nil => simp [lookupA] at h
  | cons p rest ih =>
    by_cases hk : k = p.1
    · simp [insertA, hk]
    · simp [lookupA, hk] at h
      simp [insertA, hk, ih h]

theorem updT_self {α : Type} (t : Nat → Option α) (k : Nat) (v : Option α) :
    updT t k v k = v := by simp [updT]

/-! ## C10: blocked users get only the contact-admin prompt from /start -/

/-- C10: for a user whose stored record is blocked, `start_command` — with or
without an access-code argument — returns the contact-admin prompt and leaves
the whole process state (user record, rate state, memberships, registry,
downloads) unchanged: no rate-limit, membership, or delivery processing runs.
-/
theorem start_blocked_noop (st : BotState) (probe : String → ProbeResult)
    (sendOracle : Nat → SendResult) (now : ℚ) (u : TgUser) (args : Option String)
    (info : UserInfo) (hrec : st.users u.id = some info) (hb : info.isBlocked = true) :
    start_command st probe sendOracle now u args = (st, .blockedPrompt) := by
  simp [start_command, hrec, hb]

/-- Concrete instance discharging `start_blocked_noop`'s hypotheses. -/
def stBlocked : BotState where
  users := updT (fun _ => none) 5 (some ⟨"ed", "Ed", true, 0⟩)
  admins := fun _ => false
  files := []
  mandatoryChannels := []
  spamControl := emptySpam
  memberships := fun _ _ => false
  downloads := []

theorem start_blocked_noop_witness :
    stBlocked.users 5 = some ⟨"ed", "Ed", true, 0⟩ ∧
    (UserInfo.mk "ed" "Ed" true 0).isBlocked = true ∧
    start_command stBlocked (fun _ => .err) (fun _ => .fail) 1 ⟨5, none, none⟩
      (some "abc") = (stBlocked, .blockedPrompt) :=
  ⟨rfl, rfl, start_blocked_noop stBlocked (fun _ => .err) (fun _ => .fail) 1
    ⟨5, none, none⟩ (some "abc") ⟨"ed", "Ed", true, 0⟩ rfl rfl⟩

/-! ## C5: the AwaitingTTL step -/

/-- C5: in the `delete_time` state, an integer in `[5, 30]` (both bounds
included) commits exactly one bundle — the accumulated items, the pending
caption, TTL = N, under the freshly drawn code — and destroys the session;
a non-integer or out-of-range input is rejected with a re-prompt, leaving
the registry and the session untouched. -/
theorem set_ttl_spec (files : List (String × FileGroup)) (session : UploadSession)
    (uid : Nat) (now : ℚ) (code : String) (input : Option Int) :
    (∀ n : Int, input = some n → 5 ≤ n → n ≤ 30 →
      set_ttl files session uid now code input =
        (insertA code ⟨code, session.tempFiles, session.caption, n, uid, now⟩ files,
         none, .committed code)) ∧
    (∀ n : Int, input = some n → 5 ≤ n → n ≤ 30 → lookupA code files = none →
      lookupA code (set_ttl files session uid now code input).1 =
          some ⟨code, session.tempFiles, session.caption, n, uid, now⟩ ∧
        (set_ttl files session uid now code input).1.length = files.length + 1 ∧
        (∀ c : String, c ≠ code →
          lookupA c (set_ttl files session uid now code input).1 = lookupA c files)) ∧
    (input = none →
      set_ttl files session uid now code input = (files, some session, .notAnInteger)) ∧
    (∀ n : Int, input = some n → (n < 5 ∨ 30 < n) →
      set_ttl files session uid now code input = (files, some session, .outOfRange)) := by
  refine ⟨?_, ?_, ?_, ?_⟩
  · intro n hn h5 h30
    subst hn
    simp [set_ttl, not_lt.mpr h5, not_lt.mpr h30]
  · intro n hn h5 h30 hfresh
    subst hn
    simp only [set_ttl, not_lt.mpr h5, not_lt.mpr h30, or_self, if_false]
    refine ⟨lookupA_insertA_self _ _ _, ?_, ?_⟩
    · exact length_insertA_of_lookup_none _ _ _ hfresh
    · intro c hc; exact lookupA_insertA_ne _ _ _ _ hc
  · intro hn; subst hn; rfl
  · intro n hn hout
    subst hn
    rcases hout with h | h
    · simp [set_ttl, h]
    · simp [set_ttl, h]

theorem set_ttl_spec_witness :
    ((some 5 : Option Int) = some 5 ∧ (5 : Int) ≤ 5 ∧ (5 : Int) ≤ 30 ∧
      set_ttl [] ⟨[⟨"photo", "f"⟩], some "cap"⟩ 1 0 "k" (some 5) =
        (insertA "k" ⟨"k", [⟨"photo", "f"⟩], some "cap", 5, 1, 0⟩ [],
         none, .committed "k")) ∧
    ((some 31 : Option Int) = some 31 ∧ ((31 : Int) < 5 ∨ (30 : Int) < 31) ∧
      set_ttl [] ⟨[⟨"photo", "f"⟩], some "cap"⟩ 1 0 "k" (some 31) =
        ([], some ⟨[⟨"photo", "f"⟩], some "cap"⟩, .outOfRange)) :=
  ⟨⟨rfl, by decide, by decide,
    (set_ttl_spec [] ⟨[⟨"photo", "f"⟩], some "cap"⟩ 1 0 "k" (some 5)).1 5 rfl
      (by decide) (by decide)⟩,
   ⟨rfl, Or.inr (by decide),
    (set_ttl_spec [] ⟨[⟨"photo", "f"⟩], some "cap"⟩ 1 0 "k" (some 31)).2.2.2 31 rfl
      (Or.inr (by decide))⟩⟩

/-! ## C6: media arriving in AwaitingCaption/AwaitingTTL -/

/-- C6 counterexample: with the session in the `delete_time` (AwaitingTTL)
state, an arriving photo is *not* rejected — `handle_admin_media` appends it
to the accumulated item list, so the session is mutated. -/
theorem admin_media_counterexample :
    (handle_admin_media ⟨some "delete_time", [⟨"photo", "f1"⟩], some "cap"⟩
        (.photo "f2")).1.tempFiles ≠ [⟨"photo", "f1"⟩] ∧
    (handle_admin_media ⟨some "delete_time", [⟨"photo", "f1"⟩], some "cap"⟩
        (.photo "f2")).2 ≠ .unsupportedType := by
  constructor <;> simp [handle_admin_media]

/-- C6 amended: `handle_admin_media` never consults the `awaiting` marker:
a photo or video arriving in any session state (including `caption_for_files`
and `delete_time`) is accepted and appended to the accumulated item list,
while the `awaiting` marker and the pending caption are left unchanged; only
a message that is neither photo nor video is rejected, with no mutation. -/
theorem admin_media_always_appends (ud : AdminUserData) (fid : String) :
    (handle_admin_media ud (.photo fid) =
      ({ awaiting := ud.awaiting, tempFiles := ud.tempFiles ++ [⟨"photo", fid⟩],
         caption := ud.caption }, .accepted (ud.tempFiles.length + 1))) ∧
    (handle_admin_media ud (.video fid) =
      ({ awaiting := ud.awaiting, tempFiles := ud.tempFiles ++ [⟨"video", fid⟩],
         caption := ud.caption }, .accepted (ud.tempFiles.length + 1))) ∧
    (handle_admin_media ud .other = (ud, .unsupportedType)) := by
  refine ⟨?_, ?_, rfl⟩ <;> rfl

/-! ## C9: unreachable recipients become blocked and broadcasts skip them -/

theorem broadcast_skips_blocked (sendOk : Nat → Bool) (users : Nat → Option UserInfo)
    (order : List Nat) (v : Nat) (inf : UserInfo)
    (hv : users v = some inf) (hb : inf.isBlocked = true) :
    v ∉ (broadcast_message sendOk users order).1 := by
  induction order with
  | nil => simp [broadcast_message]
  | cons u rest ih =>
    simp only [broadcast_message]
    rcases hu : users u with _ | info
    · exact ih
    · by_cases hbl : info.isBlocked
      · simp [hbl]; exact ih
      · have hne : v ≠ u := by
          intro he; subst he; rw [hv] at hu; cases hu; rw [hb] at hbl; exact hbl rfl
        by_cases hs : sendOk u <;> simp [hbl, hs, hne] <;> exact ih

/-- C9: when a delivery error whose text indicates an unreachable recipient
("Forbidden", or "blocked" in its lowercase form) is handled for a user with
a stored record, that record's blocked flag is set, and every subsequent
broadcast skips that user — as it skips every user whose record is blocked.
-/
theorem unreachable_user_blocked (e : String) (u : Nat) (users : Nat → Option UserInfo)
    (info : UserInfo)
    (herr : (strContains "Forbidden" e || strContains "blocked" (lowerStr e)) = true)
    (hu : users u = some info) :
    (error_handler e (some u) users) u = some { info with isBlocked := true } ∧
    (∀ sendOk : Nat → Bool, ∀ order : List Nat,
      u ∉ (broadcast_message sendOk (error_handler e (some u) users) order).1) ∧
    (∀ sendOk : Nat → Bool, ∀ order : List Nat, ∀ v : Nat, ∀ inf : UserInfo,
      (error_handler e (some u) users) v = some inf → inf.isBlocked = true →
      v ∉ (broadcast_message sendOk (error_handler e (some u) users) order).1) := by
  have hset : (error_handler e (some u) users) u = some { info with isBlocked := true } := by
    simp [error_handler, herr, hu, updT]
  refine ⟨hset, ?_, ?_⟩
  · intro sendOk order
    exact broadcast_skips_blocked sendOk _ order u { info with isBlocked := true } hset rfl
  · intro sendOk order v inf hv hb
    exact broadcast_skips_blocked sendOk _ order v inf hv hb

theorem unreachable_user_blocked_witness :
    (strContains "Forbidden" "Forbidden: bot was blocked by the user" ||
      strContains "blocked" (lowerStr "Forbidden: bot was blocked by the user")) = true ∧
    updT (fun _ => none) 9 (some (UserInfo.mk "un" "U" false 0)) 9 =
      some (UserInfo.mk "un" "U" false 0) ∧
    (error_handler "Forbidden: bot was blocked by the user" (some 9)
        (updT (fun _ => none) 9 (some (UserInfo.mk "un" "U" false 0)))) 9 =
      some (UserInfo.mk "un" "U" true 0) :=
  ⟨rfl, rfl,
   (unreachable_user_blocked "Forbidden: bot was blocked by the user" 9
     (updT (fun _ => none) 9 (some (UserInfo.mk "un" "U" false 0))) (UserInfo.mk "un" "U" false 0)
     rfl rfl).1⟩

/-! ## C3: registry lookup happens before the membership gate -/

/-- C3 counterexample: a non-admin requester with a fresh rate state and an
unmet (trust-mode) mandatory channel who asks for a nonexistent code is
answered with code-not-found — not with the membership remediation prompt —
even though the membership gate, had it been consulted, reports the
requirement unmet. -/
theorem code_before_membership_counterexample :
    (handle_file_access
        ⟨fun _ => none, fun _ => false, [], [⟨"@c", "@c", "join", false⟩],
         emptySpam, fun _ _ => false, []⟩
        (fun _ => .err) (fun _ => .fail) 0 5 "zzz").2 = .codeNotFound ∧
    (check_membership [⟨"@c", "@c", "join", false⟩] (fun _ => .err) 5
        (fun _ _ => false)).2 = [⟨"@c", "@c", "join", false⟩] := by
  constructor
  · rfl
  · rfl

/-- C3 amended: for a request that passes the rate limiter, the source
consults the registry *before* the membership gate: a missing code yields
code-not-found regardless of the requester's membership state, and the
membership remediation prompt is issued only when the code exists. -/
theorem code_checked_before_membership (st : BotState) (probe : String → ProbeResult)
    (sendOracle : Nat → SendResult) (now : ℚ) (uid : Nat) (code : String)
    (hadmin : st.admins uid = false)
    (hgate : (rateGate now uid st.spamControl).2 = .allowed) :
    (lookupA code st.files = none ↔
      (handle_file_access st probe sendOracle now uid code).2 = .codeNotFound) ∧
    (∀ l, (handle_file_access st probe sendOracle now uid code).2 = .membershipRequired l →
      (lookupA code st.files).isSome = true) := by
  simp only [handle_file_access, hadmin, if_false, Bool.false_eq_true, hgate]
  rcases hl : lookupA code st.files with _ | fg
  · simp
  · simp only [Option.isSome_some]
    rcases he : (check_membership st.mandatoryChannels probe uid st.memberships).2.isEmpty
    · simp [he]
    · simp [he]

theorem code_checked_before_membership_witness :
    (BotState.admins ⟨fun _ => none, fun _ => false, [], [], emptySpam,
        fun _ _ => false, []⟩ 5 = false) ∧
    ((rateGate 0 5 (BotState.spamControl ⟨fun _ => none, fun _ => false, [], [],
        emptySpam, fun _ _ => false, []⟩)).2 = .allowed) ∧
    ((lookupA "q" (BotState.files ⟨fun _ => none, fun _ => false, [], [], emptySpam,
        fun _ _ => false, []⟩) = none ↔
      (handle_file_access ⟨fun _ => none, fun _ => false, [], [], emptySpam,
        fun _ _ => false, []⟩ (fun _ => .err) (fun _ => .fail) 0 5 "q").2 =
        .codeNotFound)) :=
  ⟨rfl, rfl,
   (code_checked_before_membership ⟨fun _ => none, fun _ => false, [], [], emptySpam,
     fun _ _ => false, []⟩ (fun _ => .err) (fun _ => .fail) 0 5 "q" rfl rfl).1⟩

/-! ## C4: the six-attempt rate-limit scenario -/

theorem rateGate_fresh (now : ℚ) (uid : Nat) (sc : SpamTable) (h : sc uid = none) :
    rateGate now uid sc = (updT sc uid (some ⟨1, now, none⟩), .allowed) := by
  simp [rateGate, is_temp_blocked, check_spam, h]

theorem rateGate_rapid (now : ℚ) (uid : Nat) (sc : SpamTable) (c : Nat) (last : ℚ)
    (h : sc uid = some ⟨c, last, none⟩) (hd : now - last < 2) (hc : c + 1 < 5)
    (hnn : 0 ≤ now - last) :
    rateGate now uid sc =
      (updT sc uid (some ⟨c + 1, now, none⟩), .throttled (pyInt (2 - (now - last)))) := by
  have h2 : (0 : ℚ) ≤ 2 - (now - last) := by linarith
  have hfl : pyInt (2 - (now - last)) ≤ 2 := by
    unfold pyInt
    rw [if_pos h2]
    have : (⌊(2 - (now - last) : ℚ)⌋ : ℚ) ≤ 2 - (now - last) := Int.floor_le _
    have h22 : ⌊(2 - (now - last) : ℚ)⌋ ≤ ⌊(2 : ℚ)⌋ := Int.floor_le_floor (by linarith)
    simpa using h22
  have hw : ¬ (pyInt (2 - (now - last)) ≥ 10) := by omega
  have hge : ¬ (c + 1 ≥ 5) := by omega
  simp [rateGate, is_temp_blocked, check_spam, h, hd, hge, hw]

theorem rateGate_fifth (now : ℚ) (uid : Nat) (sc : SpamTable) (last : ℚ)
    (h : sc uid = some ⟨4, last, none⟩) (hd : now - last < 2) :
    rateGate now uid sc =
      (updT sc uid (some ⟨5, now, some (now + 10)⟩), .spamBlocked 10) := by
  simp [rateGate, is_temp_blocked, check_spam, h, hd]

theorem rateGate_blocked (now : ℚ) (uid : Nat) (sc : SpamTable) (info : SpamInfo) (bu : ℚ)
    (h : sc uid = some info) (hbu : info.blockedUntil = some bu) (hlt : now < bu) :
    rateGate now uid sc = (sc, .tempBlocked (pyInt (bu - now))) := by
  simp [rateGate, is_temp_blocked, h, hbu, hlt]

/-- C4 counterexample: user 7, no prior rate state, six attempts exactly one
second apart.  Attempt 1 is *allowed* — not throttled — and attempts 2–4 get
the equal wait `int(2 − 1) = 1`, so "attempts 1 through 4 are throttled with
strictly decreasing wait times" fails: only three of the first four outcomes
are throttles. -/
theorem rate_scenario_counterexample :
    (rateTrace 7 emptySpam [0, 1, 2, 3, 4, 5]).2 =
      [.allowed, .throttled 1, .throttled 1, .throttled 1, .spamBlocked 10,
       .tempBlocked 9] ∧
    (((rateTrace 7 emptySpam [0, 1, 2, 3, 4, 5]).2.take 4).countP
      (fun o => match o with | .throttled _ => true | _ => false)) = 3 := by
  have h : (rateTrace 7 emptySpam [0, 1, 2, 3, 4, 5]).2 =
      [.allowed, .throttled 1, .throttled 1, .throttled 1, .spamBlocked 10,
       .tempBlocked 9] := by
    norm_num [rateTrace, rateGate, check_spam, is_temp_blocked, updT, emptySpam, pyInt]
  refine ⟨h, ?_⟩
  rw [h]
  rfl

/-- C4 amended: for a non-admin user with no prior rate state making six
attempts, each `d ≤ 1` seconds after the previous one: attempt 1 is allowed
(it creates the rate state), attempts 2–4 are throttled with the constant
wait `int(2 − d)` (not strictly decreasing), attempt 5 trips the counter
threshold and triggers the 10-second block, and attempt 6, made while the
block is still active, is rejected with the remaining block time
`int(10 − d)`. -/
theorem rate_scenario (uid : Nat) (t d : ℚ) (h0 : 0 ≤ d) (h1 : d ≤ 1) :
    (rateTrace uid emptySpam
        [t, t + d, t + 2 * d, t + 3 * d, t + 4 * d, t + 5 * d]).2 =
      [.allowed, .throttled (pyInt (2 - d)), .throttled (pyInt (2 - d)),
       .throttled (pyInt (2 - d)), .spamBlocked 10, .tempBlocked (pyInt (10 - d))] := by
  have l1 := rateGate_fresh t uid emptySpam rfl
  have hu1 : updT emptySpam uid (some ⟨1, t, none⟩) uid = some ⟨1, t, none⟩ :=
    updT_self _ _ _
  have l2 := rateGate_rapid (t + d) uid _ 1 t hu1 (by linarith) (by omega) (by linarith)
  rw [show t + d - t = d by ring] at l2
  have hu2 : updT (updT emptySpam uid (some ⟨1, t, none⟩)) uid
      (some ⟨2, t + d, none⟩) uid = some ⟨2, t + d, none⟩ := updT_self _ _ _
  have l3 := rateGate_rapid (t + 2 * d) uid _ 2 (t + d) hu2 (by linarith) (by omega)
    (by linarith)
  rw [show t + 2 * d - (t + d) = d by ring] at l3
  have hu3 : updT (updT (updT emptySpam uid (some ⟨1, t, none⟩)) uid
      (some ⟨2, t + d, none⟩)) uid (some ⟨3, t + 2 * d, none⟩) uid =
      some ⟨3, t + 2 * d, none⟩ := updT_self _ _ _
  have l4 := rateGate_rapid (t + 3 * d) uid _ 3 (t + 2 * d) hu3 (by linarith) (by omega)
    (by linarith)
  rw [show t + 3 * d - (t + 2 * d) = d by ring] at l4
  have hu4 : updT (updT (updT (updT emptySpam uid (some ⟨1, t, none⟩)) uid
      (some ⟨2, t + d, none⟩)) uid (some ⟨3, t + 2 * d, none⟩)) uid
      (some ⟨4, t + 3 * d, none⟩) uid = some ⟨4, t + 3 * d, none⟩ := updT_self _ _ _
  have l5 := rateGate_fifth (t + 4 * d) uid _ (t + 3 * d) hu4 (by linarith)
  have hu5 : updT (updT (updT (updT (updT emptySpam uid (some ⟨1, t, none⟩)) uid
      (some ⟨2, t + d, none⟩)) uid (some ⟨3, t + 2 * d, none⟩)) uid
      (some ⟨4, t + 3 * d, none⟩)) uid (some ⟨5, t + 4 * d, some (t + 4 * d + 10)⟩) uid =
      some ⟨5, t + 4 * d, some (t + 4 * d + 10)⟩ := updT_self _ _ _
  have l6 := rateGate_blocked (t + 5 * d) uid _ ⟨5, t + 4 * d, some (t + 4 * d + 10)⟩
    (t + 4 * d + 10) hu5 rfl (by linarith)
  rw [show t + 4 * d + 10 - (t + 5 * d) = 10 - d by ring] at l6
  simp only [rateTrace, l1, l2, l3, l4, l5, l6]

theorem rate_scenario_witness :
    (0 : ℚ) ≤ 1 ∧ (1 : ℚ) ≤ 1 ∧
    (rateTrace 7 emptySpam
        [100, 100 + 1, 100 + 2 * 1, 100 + 3 * 1, 100 + 4 * 1, 100 + 5 * 1]).2 =
      [.allowed, .throttled (pyInt (2 - 1)), .throttled (pyInt (2 - 1)),
       .throttled (pyInt (2 - 1)), .spamBlocked 10, .tempBlocked (pyInt (10 - 1))] :=
  ⟨zero_le_one, le_refl 1, rate_scenario 7 100 1 zero_le_one (le_refl 1)⟩

/-! ## C1: trust-mode satisfied flags are monotone -/

theorem checkChannel_trust_key (probe : String → ProbeResult) (u : Nat)
    (ch : ChannelInfo) (m : Memberships) (k : String)
    (hk : ch.identifier = k → ch.canAutoVerify = false) (hm : m u k = true) :
    (checkChannel probe u ch m).1 u k = true ∧
    ((checkChannel probe u ch m).2 = true → ch.identifier ≠ k) := by
  by_cases he : ch.identifier = k
  · have hv := hk he
    simp [checkChannel, he, hv, hm]
  · have he' : ¬ (k = ch.identifier) := fun h => he h.symm
    cases hb : m u ch.identifier <;> cases hv : ch.canAutoVerify <;>
      rcases hp : probe ch.identifier with status | _ <;>
      simp [checkChannel, hb, hv, hp, updMem, he, he', hm] <;>
      split <;> simp [updMem, he', hm]

theorem checkMembershipAux_trust_mono (probe : String → ProbeResult) (u : Nat)
    (k : String) (chs : List ChannelInfo) :
    ∀ m : Memberships,
      (∀ ch ∈ chs, ch.identifier = k → ch.canAutoVerify = false) → m u k = true →
      (checkMembershipAux probe u chs m).1 u k = true ∧
      ∀ ch ∈ (checkMembershipAux probe u chs m).2, ch.identifier ≠ k := by
  induction chs with
  | nil => intro m _ hm; simpa [checkMembershipAux] using hm
  | cons ch rest ih =>
    intro m hks hm
    have h1 := checkChannel_trust_key probe u ch m k (hks ch (by simp)) hm
    have h2 := ih (checkChannel probe u ch m).1
      (fun ch' h => hks ch' (by simp [h])) h1.1
    refine ⟨h2.1, ?_⟩
    intro c hc
    simp only [checkMembershipAux] at hc
    rcases hadd : (checkChannel probe u ch m).2
    · rw [hadd] at hc
      simp only [if_false, Bool.false_eq_true] at hc
      exact h2.2 c hc
    · rw [hadd] at hc
      simp only [if_true] at hc
      rcases List.mem_cons.mp hc with hceq | hcr
      · subst hceq; exact h1.2 hadd
      · exact h2.2 c hcr

/-- A sequence of `check_membership` evaluations (possibly under different
probe outcomes), each feeding its updated membership table to the next. -/
def evaluateSeq (channels : List ChannelInfo) (u : Nat) :
    List (String → ProbeResult) → Memberships → Memberships
  | [], m => m
  | p :: ps, m => evaluateSeq channels u ps (check_membership channels p u m).1

/-- C1: if every mandatory channel stored under key `k` is trust-mode
(`can_auto_verify = false`) and user `u`'s satisfied flag for `k` is set,
then after any sequence of membership evaluations (whatever each remote
probe returns) the flag is still set, and the next evaluation does not
report that requirement in `not_joined`: the flag never transitions back,
and `mark_user_joined_channel` itself only ever sets flags to `true`. -/
theorem trust_flag_monotone (channels : List ChannelInfo) (u : Nat) (k : String)
    (m : Memberships) (probes : List (String → ProbeResult)) (p : String → ProbeResult)
    (htrust : ∀ ch ∈ channels, ch.identifier = k → ch.canAutoVerify = false)
    (hsat : m u k = true) :
    evaluateSeq channels u probes m u k = true ∧
    (∀ ch ∈ (check_membership channels p u (evaluateSeq channels u probes m)).2,
      ch.identifier ≠ k) ∧
    (∀ m' : Memberships, ∀ u' : Nat, ∀ k' : String,
      m' u' k' = true → mark_user_joined_channel m' u' k' u' k' = true) := by
  have hseq : ∀ ps : List (String → ProbeResult), ∀ m0 : Memberships, m0 u k = true →
      evaluateSeq channels u ps m0 u k = true := by
    intro ps
    induction ps with
    | nil => intro m0 hm0; simpa [evaluateSeq] using hm0
    | cons q qs ih =>
      intro m0 hm0
      exact ih _ (checkMembershipAux_trust_mono q u k channels m0 htrust hm0).1
  refine ⟨hseq probes m hsat, ?_, ?_⟩
  · exact (checkMembershipAux_trust_mono p u k channels _ htrust (hseq probes m hsat)).2
  · intro m' u' k' _
    simp [mark_user_joined_channel, updMem]

theorem trust_flag_monotone_witness :
    (∀ ch ∈ [ChannelInfo.mk "@t" "@t" "join" false], ch.identifier = "@t" →
      ch.canAutoVerify = false) ∧
    mark_user_joined_channel (fun _ _ => false) 3 "@t" 3 "@t" = true ∧
    evaluateSeq [ChannelInfo.mk "@t" "@t" "join" false] 3
      [fun _ => .err, fun _ => .ok "left"]
      (mark_user_joined_channel (fun _ _ => false) 3 "@t") 3 "@t" = true ∧
    (∀ ch ∈ (check_membership [ChannelInfo.mk "@t" "@t" "join" false] (fun _ => .ok "left")
        3 (evaluateSeq [ChannelInfo.mk "@t" "@t" "join" false] 3
          [fun _ => .err, fun _ => .ok "left"]
          (mark_user_joined_channel (fun _ _ => false) 3 "@t"))).2,
      ch.identifier ≠ "@t") :=
  ⟨by decide, rfl,
   (trust_flag_monotone [ChannelInfo.mk "@t" "@t" "join" false] 3 "@t"
     (mark_user_joined_channel (fun _ _ => false) 3 "@t")
     [fun _ => .err, fun _ => .ok "left"] (fun _ => .ok "left")
     (by decide) rfl).1,
   (trust_flag_monotone [ChannelInfo.mk "@t" "@t" "join" false] 3 "@t"
     (mark_user_joined_channel (fun _ _ => false) 3 "@t")
     [fun _ => .err, fun _ => .ok "left"] (fun _ => .ok "left")
     (by decide) rfl).2.1⟩

/-! ## C2: the confirm path's two-tier policy -/

theorem updMem_self (m : Memberships) (u : Nat) (k : String) (b : Bool) :
    updMem m u k b u k = b := by simp [updMem]

theorem checkChannel_preserve_other (probe : String → ProbeResult) (u : Nat)
    (ch : ChannelInfo) (m : Memberships) (u' : Nat) (k : String)
    (hne : ch.identifier ≠ k) : (checkChannel probe u ch m).1 u' k = m u' k := by
  have hne' : ¬ (k = ch.identifier) := fun h => hne h.symm
  cases hb : m u ch.identifier <;> cases hv : ch.canAutoVerify <;>
    rcases hp : probe ch.identifier with status | _ <;>
    simp [checkChannel, hb, hv, hp, updMem, hne'] <;>
    split <;> simp [updMem, hne']

theorem checkMembershipAux_preserve (probe : String → ProbeResult) (u : Nat) (k : String) :
    ∀ (chs : List ChannelInfo) (m : Memberships) (u' : Nat),
      (∀ ch ∈ chs, ch.identifier ≠ k) →
      (checkMembershipAux probe u chs m).1 u' k = m u' k := by
  intro chs
  induction chs with
  | nil => intro m u' _; rfl
  | cons ch rest ih =>
    intro m u' hks
    simp only [checkMembershipAux]
    rw [ih _ u' (fun c hc => hks c (by simp [hc]))]
    exact checkChannel_preserve_other probe u ch m u' k (hks ch (by simp))

theorem checkMembershipAux_mem_sub (probe : String → ProbeResult) (u : Nat) :
    ∀ (chs : List ChannelInfo) (m : Memberships) (ch : ChannelInfo),
      ch ∈ (checkMembershipAux probe u chs m).2 → ch ∈ chs := by
  intro chs
  induction chs with
  | nil => intro m ch h; simp [checkMembershipAux] at h
  | cons c rest ih =>
    intro m ch h
    simp only [checkMembershipAux] at h
    rcases hadd : (checkChannel probe u c m).2
    · rw [hadd] at h
      simp only [if_false, Bool.false_eq_true] at h
      exact List.mem_cons_of_mem c (ih _ ch h)
    · rw [hadd] at h
      simp only [if_true] at h
      rcases List.mem_cons.mp h with he | hr
      · exact he ▸ List.mem_cons_self c rest
      · exact List.mem_cons_of_mem c (ih _ ch hr)

theorem checkChannel_added_auto (probe : String → ProbeResult) (u : Nat)
    (ch : ChannelInfo) (m : Memberships) (hv : ch.canAutoVerify = true)
    (ha : (checkChannel probe u ch m).2 = true) :
    (checkChannel probe u ch m).1 u ch.identifier = false := by
  rcases hp : probe ch.identifier with status | _
  · by_cases hs : status ∈ memberStatuses
    · cases hb : m u ch.identifier <;> simp [checkChannel, hb, hv, hp, hs] at ha ⊢
    · cases hb : m u ch.identifier <;> simp [checkChannel, hb, hv, hp, hs, updMem]
  · cases hb : m u ch.identifier <;> simp [checkChannel, hb, hv, hp] at ha ⊢

theorem checkMembershipAux_auto_false (probe : String → ProbeResult) (u : Nat) :
    ∀ (chs : List ChannelInfo) (m : Memberships),
      (chs.map ChannelInfo.identifier).Nodup →
      ∀ ch ∈ (checkMembershipAux probe u chs m).2, ch.canAutoVerify = true →
      (checkMembershipAux probe u chs m).1 u ch.identifier = false := by
  intro chs
  induction chs with
  | nil => intro m _ ch h; simp [checkMembershipAux] at h
  | cons c rest ih =>
    intro m hnd ch hmem hauto
    have hnd' : (rest.map ChannelInfo.identifier).Nodup :=
      (List.nodup_cons.mp (by simpa using hnd)).2
    have hhead : c.identifier ∉ rest.map ChannelInfo.identifier :=
      (List.nodup_cons.mp (by simpa using hnd)).1
    simp only [checkMembershipAux] at hmem ⊢
    rcases hadd : (checkChannel probe u c m).2
    · rw [hadd] at hmem
      simp only [if_false, Bool.false_eq_true] at hmem
      exact ih _ hnd' ch hmem hauto
    · rw [hadd] at hmem
      simp only [if_true] at hmem
      rcases List.mem_cons.mp hmem with he | hr
      · subst he
        have hflag := checkChannel_added_auto probe u ch m hauto hadd
        have hpres := checkMembershipAux_preserve probe u ch.identifier rest
          (checkChannel probe u ch m).1 u
          (fun c' hc' heq => hhead (heq ▸ List.mem_map_of_mem ChannelInfo.identifier hc'))
        rw [hpres, hflag]
      · exact ih _ hnd' ch hr hauto

theorem markFold_absent (u : Nat) :
    ∀ (l : List ChannelInfo) (m : Memberships) (u' : Nat) (k : String),
      (∀ ch ∈ l, ch.identifier ≠ k) →
      (l.foldl (fun acc ch => mark_user_joined_channel acc u ch.identifier) m) u' k =
        m u' k := by
  intro l
  induction l with
  | nil => intro m u' k _; rfl
  | cons c rest ih =>
    intro m u' k hks
    simp only [List.foldl_cons]
    rw [ih _ u' k (fun c' hc' => hks c' (by simp [hc']))]
    have hne' : ¬ (k = c.identifier) := fun h => hks c (by simp) h.symm
    simp [mark_user_joined_channel, updMem, hne']

theorem markFold_mem (u : Nat) :
    ∀ (l : List ChannelInfo) (m : Memberships) (k : String),
      k ∈ l.map ChannelInfo.identifier →
      (l.foldl (fun acc ch => mark_user_joined_channel acc u ch.identifier) m) u k =
        true := by
  intro l
  induction l with
  | nil => intro m k h; simp at h
  | cons c rest ih =>
    intro m k hk
    simp only [List.foldl_cons]
    by_cases hr : k ∈ rest.map ChannelInfo.identifier
    · exact ih _ k hr
    · have hkc : k = c.identifier := by
        rcases (show k = c.identifier ∨ ∃ a ∈ rest, a.identifier = k by simpa using hk)
          with h | h
        · exact h
        · obtain ⟨a, ha, hek⟩ := h
          exact absurd (hek ▸ List.mem_map_of_mem ChannelInfo.identifier ha) hr
      have habs : ∀ ch ∈ rest, ch.identifier ≠ k := by
        intro ch hch heq
        exact hr (heq ▸ List.mem_map_of_mem ChannelInfo.identifier hch)
      rw [markFold_absent u rest _ u k habs]
      subst hkc
      simp [mark_user_joined_channel, updMem]

/-- C2: on the confirm path (the "I joined" button), with distinct stored
channel keys: every requirement still unmet whose mode is trust is marked
satisfied unconditionally; auto-mode requirements are left exactly as the
genuine re-check set them (their flag is `false`, never force-satisfied);
if any auto-mode requirement remains unmet the outcome is the rejection
alert; and the file is sent only when no auto-mode requirement remains
unmet. -/
theorem confirm_two_tier (channels : List ChannelInfo) (probe : String → ProbeResult)
    (u : Nat) (m : Memberships) (files : List (String × FileGroup)) (code : String)
    (m1 mfin : Memberships) (nj : List ChannelInfo) (out : ConfirmOutcome)
    (hNodup : (channels.map ChannelInfo.identifier).Nodup)
    (hev : check_membership channels probe u m = (m1, nj))
    (hconf : confirm_membership channels probe u m files code = (mfin, out)) :
    (∀ ch ∈ nj, ch.canAutoVerify = false → mfin u ch.identifier = true) ∧
    (∀ ch ∈ nj, ch.canAutoVerify = true → mfin u ch.identifier = false) ∧
    ((∃ ch ∈ nj, ch.canAutoVerify = true) → out = .stillNotJoined) ∧
    (out = .sent → ∀ ch ∈ nj, ch.canAutoVerify = false) := by
  have hmfin : mfin = (nj.filter (fun ch => !ch.canAutoVerify)).foldl
      (fun acc ch => mark_user_joined_channel acc u ch.identifier) m1 := by
    simp only [confirm_membership, hev] at hconf
    rcases hf : (nj.filter (·.canAutoVerify)).isEmpty
    · rw [hf] at hconf
      simp only [Bool.false_eq_true, if_false] at hconf
      exact (Prod.mk.injEq _ _ _ _ ▸ hconf).1.symm
    · rw [hf] at hconf
      simp only [if_true] at hconf
      rcases hl : (lookupA code files).isNone
      · rw [hl] at hconf
        simp only [Bool.false_eq_true, if_false] at hconf
        exact (Prod.mk.injEq _ _ _ _ ▸ hconf).1.symm
      · rw [hl] at hconf
        simp only [if_true] at hconf
        exact (Prod.mk.injEq _ _ _ _ ▸ hconf).1.symm
  refine ⟨?_, ?_, ?_, ?_⟩
  · intro ch hch htr
    rw [hmfin]
    apply markFold_mem
    apply List.mem_map_of_mem
    exact List.mem_filter.mpr ⟨hch, by simp [htr]⟩
  · intro ch hch hauto
    have hflag : m1 u ch.identifier = false := by
      have := checkMembershipAux_auto_false probe u channels m hNodup ch
        (by rw [show checkMembershipAux probe u channels m = (m1, nj) from hev]; exact hch)
        hauto
      rwa [show checkMembershipAux probe u channels m = (m1, nj) from hev] at this
    rw [hmfin]
    rw [markFold_absent u _ m1 u ch.identifier ?_]
    · exact hflag
    · intro ch' hch' heq
      have hch'nj : ch' ∈ nj := (List.mem_filter.mp hch').1
      have hch'tr : ch'.canAutoVerify = false := by
        have := (List.mem_filter.mp hch').2
        simpa using this
      have hsub : ∀ c ∈ nj, c ∈ channels := by
        intro c hc
        have := checkMembershipAux_mem_sub probe u channels m c
          (by rw [show checkMembershipAux probe u channels m = (m1, nj) from hev]; exact hc)
        exact this
      have : ch' = ch := List.inj_on_of_nodup_map hNodup (hsub ch' hch'nj) (hsub ch hch) heq
      rw [this, hauto] at hch'tr
      cases hch'tr
  · rintro ⟨ch, hch, hauto⟩
    have hne : (nj.filter (·.canAutoVerify)).isEmpty = false := by
      rcases hq : (nj.filter (·.canAutoVerify)).isEmpty
      · exact hq
      · have hc : ch ∈ nj.filter (·.canAutoVerify) := List.mem_filter.mpr ⟨hch, hauto⟩
        rw [List.isEmpty_iff] at hq
        rw [hq] at hc
        simp at hc
    simp only [confirm_membership, hev, hne, Bool.false_eq_true, if_false] at hconf
    exact ((Prod.mk.injEq _ _ _ _ ▸ hconf).2).symm
  · intro hsent ch hch
    rcases hf : (nj.filter (·.canAutoVerify)).isEmpty
    · simp only [confirm_membership, hev, hf, Bool.false_eq_true, if_false] at hconf
      have : out = .stillNotJoined := ((Prod.mk.injEq _ _ _ _ ▸ hconf).2).symm
      rw [hsent] at this
      cases this
    · have hnil : nj.filter (·.canAutoVerify) = [] := List.isEmpty_iff.mp hf
      have := List.filter_eq_nil_iff.mp hnil ch hch
      simpa using this

def chansW : List ChannelInfo :=
  [⟨"@a", "@a", "joinA", true⟩, ⟨"@t", "@t", "joinT", false⟩]

def probeW : String → ProbeResult := fun s => if s = "@a" then .ok "left" else .err

def memW : Memberships := fun _ _ => false

def filesW : List (String × FileGroup) := [("f", ⟨"f", [⟨"photo", "x"⟩], none, 10, 1, 0⟩)]

theorem confirm_two_tier_witness :
    (chansW.map ChannelInfo.identifier).Nodup ∧
    ((∀ ch ∈ (check_membership chansW probeW 3 memW).2, ch.canAutoVerify = false →
        (confirm_membership chansW probeW 3 memW filesW "f").1 3 ch.identifier = true) ∧
      (∀ ch ∈ (check_membership chansW probeW 3 memW).2, ch.canAutoVerify = true →
        (confirm_membership chansW probeW 3 memW filesW "f").1 3 ch.identifier = false) ∧
      ((∃ ch ∈ (check_membership chansW probeW 3 memW).2, ch.canAutoVerify = true) →
        (confirm_membership chansW probeW 3 memW filesW "f").2 = .stillNotJoined) ∧
      ((confirm_membership chansW probeW 3 memW filesW "f").2 = .sent →
        ∀ ch ∈ (check_membership chansW probeW 3 memW).2, ch.canAutoVerify = false)) :=
  ⟨by decide,
   confirm_two_tier chansW probeW 3 memW filesW "f"
     (check_membership chansW probeW 3 memW).1
     (confirm_membership chansW probeW 3 memW filesW "f").1
     (check_membership chansW probeW 3 memW).2
     (confirm_membership chansW probeW 3 memW filesW "f").2
     (by decide) rfl rfl⟩

/-! ## C7: delivery is all-or-nothing -/

theorem sendLoop_all_ok (oracle : Nat → SendResult) :
    ∀ (fs : List FileItem) (idx att : Nat),
      (∀ f ∈ fs, f.fileType = "photo" ∨ f.fileType = "video") →
      (∀ i, i < fs.length → oracle (idx + i) ≠ .fail) →
      ∃ ids : List Nat, sendLoop oracle fs idx att = (att + fs.length, some ids) ∧
        ids.length = fs.length := by
  intro fs
  induction fs with
  | nil => intro idx att _ _; exact ⟨[], by simp [sendLoop], rfl⟩
  | cons f rest ih =>
    intro idx att hk hok
    have hkf : f.fileType = "photo" ∨ f.fileType = "video" := hk f (by simp)
    have h0 : oracle idx ≠ .fail := by
      have := hok 0 (by simp)
      simpa using this
    rcases hp : oracle idx with mid | _
    · obtain ⟨ids, hrec, hlen⟩ := ih (idx + 1) (att + 1)
        (fun g hg => hk g (by simp [hg]))
        (fun i hi => by
          have := hok (i + 1) (by simpa using Nat.succ_lt_succ hi)
          rwa [show idx + (i + 1) = idx + 1 + i by omega] at this)
      refine ⟨mid :: ids, ?_, by simp [hlen]⟩
      have hstep : sendLoop oracle (f :: rest) idx att =
          ((sendLoop oracle rest (idx + 1) (att + 1)).1,
           (sendLoop oracle rest (idx + 1) (att + 1)).2.map (mid :: ·)) := by
        simp [sendLoop, hkf, hp]
      rw [hstep, hrec]
      simp only [Option.map_some, List.length_cons, Prod.mk.injEq]
      exact ⟨by omega, rfl⟩
    · exact absurd hp h0

theorem sendLoop_first_fail (oracle : Nat → SendResult) :
    ∀ (fs : List FileItem) (idx att j : Nat),
      (∀ f ∈ fs, f.fileType = "photo" ∨ f.fileType = "video") →
      j < fs.length → oracle (idx + j) = .fail →
      (∀ i, i < j → oracle (idx + i) ≠ .fail) →
      sendLoop oracle fs idx att = (att + j + 1, none) := by
  intro fs
  induction fs with
  | nil => intro idx att j _ hj _ _; simp at hj
  | cons f rest ih =>
    intro idx att j hk hj hf hmin
    have hkf : f.fileType = "photo" ∨ f.fileType = "video" := hk f (by simp)
    cases j with
    | zero =>
      have hfz : oracle idx = .fail := by simpa using hf
      simp [sendLoop, hkf, hfz]
    | succ j' =>
      have h0 : oracle idx ≠ .fail := by
        have := hmin 0 (Nat.succ_pos j')
        simpa using this
      rcases hp : oracle idx with mid | _
      · have hrec := ih (idx + 1) (att + 1) j' (fun g hg => hk g (by simp [hg]))
          (by simpa using Nat.lt_of_succ_lt_succ hj)
          (by rwa [show idx + 1 + j' = idx + (j' + 1) by omega])
          (fun i hi => by
            have := hmin (i + 1) (Nat.succ_lt_succ hi)
            rwa [show idx + (i + 1) = idx + 1 + i by omega] at this)
        have hstep : sendLoop oracle (f :: rest) idx att =
            ((sendLoop oracle rest (idx + 1) (att + 1)).1,
             (sendLoop oracle rest (idx + 1) (att + 1)).2.map (mid :: ·)) := by
          simp [sendLoop, hkf, hp]
        rw [hstep, hrec]
        simp only [Option.map_none, Prod.mk.injEq]
        exact ⟨by omega, rfl⟩
      · exact absurd hp h0

/-- C7: with a nonempty bundle whose items are all photo/video: if every send
succeeds, the cleanup task is scheduled, the download event is recorded, and
no error is surfaced; if any send fails, no cleanup is scheduled, no download
is recorded, the delivery error is surfaced, and — taking `j` as the first
failing send — exactly `j + 1` send calls were made, so the remaining sends
were aborted. -/
theorem delivery_all_or_nothing (oracle : Nat → SendResult) (uid : Nat) (fg : FileGroup)
    (code : String) (downloads : List DownloadRec) (now : ℚ)
    (hne : fg.files ≠ [])
    (hk : ∀ f ∈ fg.files, f.fileType = "photo" ∨ f.fileType = "video") :
    ((∀ i, i < fg.files.length → oracle i ≠ .fail) →
      (send_files_to_user oracle uid fg code downloads now).2.cleanup.isSome = true ∧
      (send_files_to_user oracle uid fg code downloads now).2.downloadRecorded = true ∧
      (send_files_to_user oracle uid fg code downloads now).2.errorMessageSent = false ∧
      (send_files_to_user oracle uid fg code downloads now).1 =
        downloads ++ [⟨code, uid, now⟩]) ∧
    ((∃ i, i < fg.files.length ∧ oracle i = .fail) →
      (send_files_to_user oracle uid fg code downloads now).2.cleanup = none ∧
      (send_files_to_user oracle uid fg code downloads now).2.downloadRecorded = false ∧
      (send_files_to_user oracle uid fg code downloads now).2.errorMessageSent = true ∧
      (send_files_to_user oracle uid fg code downloads now).1 = downloads) ∧
    (∀ j, j < fg.files.length → oracle j = .fail → (∀ i, i < j → oracle i ≠ .fail) →
      (send_files_to_user oracle uid fg code downloads now).2.attempted = j + 1) := by
  refine ⟨?_, ?_, ?_⟩
  · intro hok
    obtain ⟨ids, hloop, hlen⟩ := sendLoop_all_ok oracle fg.files 0 0 hk
      (fun i hi => by simpa using hok i hi)
    have hids : ids.isEmpty = false := by
      cases ids with
      | nil =>
        rw [List.length_nil] at hlen
        exact absurd (List.length_eq_zero.mp hlen.symm) hne
      | cons a l => rfl
    simp [send_files_to_user, hloop, hids]
  · rintro ⟨i, hi, hfail⟩
    have hex : ∃ i, oracle i = .fail := ⟨i, hfail⟩
    set j := Nat.find hex with hj
    have hjf : oracle j = .fail := Nat.find_spec hex
    have hjle : j ≤ i := Nat.find_min' hex hfail
    have hjlt : j < fg.files.length := lt_of_le_of_lt hjle hi
    have hjmin : ∀ i', i' < j → oracle i' ≠ .fail := fun i' hi' => Nat.find_min hex hi'
    have hloop := sendLoop_first_fail oracle fg.files 0 0 j hk hjlt
      (by simpa using hjf) (fun i' hi' => by simpa using hjmin i' hi')
    simp [send_files_to_user, hloop]
  · intro j hjlt hjf hjmin
    have hloop := sendLoop_first_fail oracle fg.files 0 0 j hk hjlt
      (by simpa using hjf) (fun i' hi' => by simpa using hjmin i' hi')
    simp [send_files_to_user, hloop]

def fgW : FileGroup := ⟨"c", [⟨"photo", "a"⟩, ⟨"video", "b"⟩], none, 5, 1, 0⟩

theorem delivery_all_or_nothing_witness :
    fgW.files ≠ [] ∧
    (∀ f ∈ fgW.files, f.fileType = "photo" ∨ f.fileType = "video") ∧
    ((∀ i, i < fgW.files.length → (fun i => SendResult.ok (100 + i)) i ≠ .fail) →
      (send_files_to_user (fun i => .ok (100 + i)) 4 fgW "c" [] 0).2.cleanup.isSome =
        true ∧
      (send_files_to_user (fun i => .ok (100 + i)) 4 fgW "c" [] 0).2.downloadRecorded =
        true ∧
      (send_files_to_user (fun i => .ok (100 + i)) 4 fgW "c" [] 0).2.errorMessageSent =
        false ∧
      (send_files_to_user (fun i => .ok (100 + i)) 4 fgW "c" [] 0).1 = [] ++ [⟨"c", 4, 0⟩]) :=
  ⟨by decide, by decide,
   (delivery_all_or_nothing (fun i => .ok (100 + i)) 4 fgW "c" [] 0 (by decide)
     (by decide)).1⟩

/-! ## C8: access-code generation and collision behaviour -/

theorem sextetsLE_length : ∀ (k e : Nat), (sextetsLE k e).length = k := by
  intro k
  induction k with
  | zero => intro e; rfl
  | succ k ih => intro e; simp [sextetsLE, ih]

theorem sextetsLE_lt : ∀ (k e d : Nat), d ∈ sextetsLE k e → d < 64 := by
  intro k
  induction k with
  | zero => intro e d h; simp [sextetsLE] at h
  | succ k ih =>
    intro e d h
    rcases List.mem_cons.mp h with he | hr
    · subst he; exact Nat.mod_lt _ (by omega)
    · exact ih (e / 64) d hr

theorem sextetsVal_sextetsLE : ∀ (k e : Nat), e < 64 ^ k →
    sextetsVal (sextetsLE k e) = e := by
  intro k
  induction k with
  | zero => intro e he; interval_cases e; rfl
  | succ k ih =>
    intro e he
    have hdiv : e / 64 < 64 ^ k := by
      rw [Nat.div_lt_iff_lt_mul (by omega : 0 < 64)]
      calc e < 64 ^ (k + 1) := he
        _ = 64 ^ k * 64 := by ring
    simp only [sextetsLE, sextetsVal, ih (e / 64) hdiv]
    omega

theorem alph_getD_indexOf :
    ∀ d : Fin 64, base64urlAlphabet.indexOf (base64urlAlphabet.getD d.val 'A') = d.val := by
  decide

theorem alph_getD_mem : ∀ d : Nat, base64urlAlphabet.getD d 'A' ∈ base64urlAlphabet := by
  intro d
  by_cases h : d < base64urlAlphabet.length
  · rw [List.getD_eq_getElem base64urlAlphabet 'A' h]
    exact List.getElem_mem h
  · rw [List.getD_eq_default base64urlAlphabet 'A' (by omega)]
    decide

theorem map_enc_dec : ∀ l : List Nat, (∀ d ∈ l, d < 64) →
    ((l.map (fun d => base64urlAlphabet.getD d 'A')).map
      (fun c => base64urlAlphabet.indexOf c)) = l := by
  intro l
  induction l with
  | nil => intro _; rfl
  | cons d rest ih =>
    intro h
    simp only [List.map_cons]
    rw [ih (fun x hx => h x (by simp [hx]))]
    have := alph_getD_indexOf ⟨d, h d (by simp)⟩
    simp only at this
    rw [this]

/-- C8 counterexample: committing a bundle whose freshly drawn token equals a
code already present in the registry does not reject and regenerate — it
overwrites the existing bundle in place (the registry still has one entry,
now holding the new bundle). -/
theorem publish_overwrite_counterexample :
    lookupA "c8" (set_ttl [("c8", ⟨"c8", [⟨"photo", "x"⟩], none, 7, 1, 0⟩)]
        ⟨[⟨"video", "y"⟩], some "t"⟩ 2 0 "c8" (some 10)).1 =
      some ⟨"c8", [⟨"video", "y"⟩], some "t", 10, 2, 0⟩ ∧
    (set_ttl [("c8", ⟨"c8", [⟨"photo", "x"⟩], none, 7, 1, 0⟩)]
        ⟨[⟨"video", "y"⟩], some "t"⟩ 2 0 "c8" (some 10)).1.length = 1 ∧
    (FileGroup.mk "c8" [⟨"video", "y"⟩] (some "t") 10 2 0) ≠
      (FileGroup.mk "c8" [⟨"photo", "x"⟩] none 7 1 0) := by
  refine ⟨rfl, rfl, ?_⟩
  intro h
  simp [FileGroup.mk.injEq] at h

/-- C8 amended: the access code drawn at commit time is
`secrets.token_urlsafe(8)` — an 11-character token over the URL-safe base64
alphabet that is injective on the 2^64 possible random draws, i.e. it
carries 64 bits of randomness — but the source performs no collision check:
committing under a token equal to an existing registry code overwrites that
bundle in place rather than rejecting and regenerating. -/
theorem access_code_token_and_overwrite :
    (∀ r1 r2 : Nat, r1 < 2 ^ 64 → r2 < 2 ^ 64 →
      token_urlsafe8 r1 = token_urlsafe8 r2 → r1 = r2) ∧
    (∀ r : Nat, ∀ c ∈ token_urlsafe8 r, c ∈ base64urlAlphabet) ∧
    (∀ r : Nat, (token_urlsafe8 r).length = 11) ∧
    (∀ (files : List (String × FileGroup)) (session : UploadSession) (uid : Nat)
      (now : ℚ) (code : String) (n : Int) (old : FileGroup),
      5 ≤ n → n ≤ 30 → lookupA code files = some old →
      lookupA code (set_ttl files session uid now code (some n)).1 =
          some ⟨code, session.tempFiles, session.caption, n, uid, now⟩ ∧
        ((set_ttl files session uid now code (some n)).1).length = files.length) := by
  refine ⟨?_, ?_, ?_, ?_⟩
  · intro r1 r2 h1 h2 heq
    have e1 : r1 % 2 ^ 64 = r1 := Nat.mod_eq_of_lt h1
    have e2 : r2 % 2 ^ 64 = r2 := Nat.mod_eq_of_lt h2
    have hb : ∀ r : Nat, r < 2 ^ 64 → r * 4 < 64 ^ 11 := by
      intro r hr
      have h11 : (64 : Nat) ^ 11 = 2 ^ 64 * 4 := by norm_num
      rw [h11]
      exact (Nat.mul_lt_mul_right (by omega : 0 < 4)).mpr hr
    unfold token_urlsafe8 at heq
    rw [e1, e2] at heq
    have hmap := congrArg (List.map (fun c => base64urlAlphabet.indexOf c)) heq
    rw [map_enc_dec _ (fun d hd => sextetsLE_lt 11 (r1 * 4) d (List.mem_reverse.mp hd)),
        map_enc_dec _ (fun d hd => sextetsLE_lt 11 (r2 * 4) d (List.mem_reverse.mp hd))]
      at hmap
    have hlists : sextetsLE 11 (r1 * 4) = sextetsLE 11 (r2 * 4) :=
      List.reverse_injective hmap
    have hvals := congrArg sextetsVal hlists
    rw [sextetsVal_sextetsLE 11 (r1 * 4) (hb r1 h1),
        sextetsVal_sextetsLE 11 (r2 * 4) (hb r2 h2)] at hvals
    omega
  · intro r c hc
    unfold token_urlsafe8 at hc
    obtain ⟨d, _, hd⟩ := List.mem_map.mp hc
    exact hd ▸ alph_getD_mem d
  · intro r
    unfold token_urlsafe8
    rw [List.length_map, List.length_reverse, sextetsLE_length]
  · intro files session uid now code n old h5 h30 hold
    simp only [set_ttl, not_lt.mpr h5, not_lt.mpr h30, or_self, if_false]
    exact ⟨lookupA_insertA_self _ _ _, length_insertA_of_lookup_some _ _ old _ hold⟩

theorem access_code_token_and_overwrite_witness :
    ((3 : Nat) < 2 ^ 64 ∧ (3 : Nat) < 2 ^ 64 ∧ token_urlsafe8 3 = token_urlsafe8 3 ∧
      (3 : Nat) = 3) ∧
    ((5 : Int) ≤ 10 ∧ (10 : Int) ≤ 30 ∧
      lookupA "k" [("k", FileGroup.mk "k" [] none 9 1 0)] =
        some (FileGroup.mk "k" [] none 9 1 0) ∧
      lookupA "k" (set_ttl [("k", FileGroup.mk "k" [] none 9 1 0)] ⟨[⟨"photo", "z"⟩], none⟩
          2 0 "k" (some 10)).1 =
        some ⟨"k", [⟨"photo", "z"⟩], none, 10, 2, 0⟩ ∧
      ((set_ttl [("k", FileGroup.mk "k" [] none 9 1 0)] ⟨[⟨"photo", "z"⟩], none⟩
          2 0 "k" (some 10)).1).length = 1) :=
  ⟨⟨by decide, by decide, rfl,
    access_code_token_and_overwrite.1 3 3 (by decide) (by decide) rfl⟩,
   ⟨by decide, by decide, rfl,
    (access_code_token_and_overwrite.2.2.2 [("k", FileGroup.mk "k" [] none 9 1 0)]
      ⟨[⟨"photo", "z"⟩], none⟩ 2 0 "k" 10 (FileGroup.mk "k" [] none 9 1 0)
      (by decide) (by decide) rfl).1,
    (access_code_token_and_overwrite.2.2.2 [("k", FileGroup.mk "k" [] none 9 1 0)]
      ⟨[⟨"photo", "z"⟩], none⟩ 2 0 "k" 10 (FileGroup.mk "k" [] none 9 1 0)
      (by decide) (by decide) rfl).2⟩⟩
